import Mathlib

/-!
Verification development for the job-application tracker (`src/main.py`).

The development shallowly embeds the parts of the program the claims are
about:

* the Storage Engine (`Database` class): in-memory record set, pending
  new-entry buffer, derived counters, and the physical store, with the
  `commit`, `append_entry`, `update_entry`, `search` and `jobcount_check`
  operations;
* the load path of `Database.__init__` (date parsing, `CorruptRecord`);
* the admin tools: `aggregate` (groupby + sort), `transpile` (csv → sqlite)
  and `untranspile` (sqlite → csv).

Dates live in two forms, exactly as in the source: in memory they are
comparable calendar values (here `Nat`, standing for the pandas timestamp),
and in the physical text formats they are strings in the shape
`"%Y-%m-%d %H:%M:%S"` (here `List Char`).
-/

namespace JobSearch

/-- One row of the in-memory record set: `Company, Status, Quantity, Date`.
`date` is the parsed, comparable calendar value (pandas timestamp at day
granularity in the source). -/
structure Row where
  company : String
  status : String
  quantity : Int
  date : Nat
deriving DecidableEq, Repr

/-- Which backend the `Database` was opened with (`csv` or `sql` argument). -/
inductive Backend where
  | csv
  | sql
deriving DecidableEq, Repr

/-- Sum of the `Quantity` column of a list of rows
(`dataframe['Quantity'].sum()`; the empty sum is `0`). -/
def sumQ (l : List Row) : Int :=
  (l.map Row.quantity).sum

/-- The state of the `Database` singleton: the in-memory dataframe, the
`new_entries` buffer, the two derived counters, today's date (captured once),
the logical content of the physical store, and the backend type. -/
structure DBState where
  rows : List Row
  newEntries : List Row
  jobcountToday : Int
  totalJobcount : Int
  today : Nat
  store : List Row
  typ : Backend
deriving DecidableEq, Repr

/-- `Database.commit(replace, status_replace, value, company, status, choice)`.
For the csv backend, `replace` appends the buffered `new_entries` to the file
and otherwise the whole dataframe is rewritten.  For the sql backend,
`replace` runs the targeted quantity update restricted to
`Company = company AND Date = today`; `status_replace` runs the status
(`choice = 's'`) or company-rename (any other `choice`) update restricted to
`Company = company`; otherwise the buffered `new_entries` are inserted.
In every case the `new_entries` buffer is emptied afterwards. -/
def commit (s : DBState) (replace : Bool) (statusReplace : Bool)
    (value : Int) (company : String) (status : String) (choice : Char) :
    DBState :=
  let store' :=
    if s.typ = Backend.csv then
      if replace then s.store ++ s.newEntries else s.rows
    else
      if replace then
        s.store.map (fun r =>
          if r.company = company ∧ r.date = s.today then
            { r with quantity := r.quantity + value }
          else r)
      else if statusReplace then
        if choice = 's' then
          s.store.map (fun r =>
            if r.company = company then { r with status := status } else r)
        else
          s.store.map (fun r =>
            if r.company = company then { r with company := status } else r)
      else s.store ++ s.newEntries
  { s with store := store', newEntries := [] }

/-- The maximum of the `Date` column (`found_data['Date'].max()`);
`none` on an empty selection (pandas `NaN`). -/
def maxDate (l : List Row) : Option Nat :=
  (l.map Row.date).max?

/-- `Database.append_entry(name, quantity)`.  If the selection of rows with
`Company == name` has quantity sum `0`, or its maximum date is not today, a
fresh `(name, 'Applied', quantity, today)` row is appended to the dataframe
and to `new_entries` and `commit()` is called; otherwise the quantity of
every row with `Company == name` is incremented in place and the flush is
`commit()` for csv, `commit(replace=True, value, company)` for sql.
`jobcount_today` is incremented by `quantity` in both branches. -/
def appendEntry (s : DBState) (name : String) (quantity : Int) : DBState :=
  let found := s.rows.filter (fun r => decide (r.company = name))
  let s' :=
    if sumQ found = 0 ∨ maxDate found ≠ some s.today then
      let inputRow : Row := ⟨name, "Applied", quantity, s.today⟩
      commit { s with
                rows := s.rows ++ [inputRow],
                newEntries := s.newEntries ++ [inputRow] }
        false false 0 name "" 's'
    else
      let s₁ := { s with
                   rows := s.rows.map (fun r =>
                     if r.company = name then
                       { r with quantity := r.quantity + quantity }
                     else r) }
      if s.typ = Backend.csv then
        commit s₁ false false 0 name "" 's'
      else
        commit s₁ true false quantity name "" 's'
  { s' with jobcountToday := s'.jobcountToday + quantity }

/-- `Database.update_entry(name, status, choice)`: for `choice = 's'` the
status, and for `choice = 'c'` the company name, of every row with
`Company == name` is replaced by `status` in the dataframe (any other choice
changes nothing in memory); then
`commit(status_replace=True, company=name, status=status, choice=choice)`. -/
def updateEntry (s : DBState) (name : String) (status : String)
    (choice : Char) : DBState :=
  let s₁ :=
    if choice = 's' then
      { s with rows := s.rows.map (fun r =>
          if r.company = name then { r with status := status } else r) }
    else if choice = 'c' then
      { s with rows := s.rows.map (fun r =>
          if r.company = name then { r with company := status } else r) }
    else s
  commit s₁ false true 0 name status choice

/-- `Database.search(name)`: selects the rows with `Company == name` and
prints them; the state is left as it was. -/
def search (s : DBState) (name : String) : List Row × DBState :=
  (s.rows.filter (fun r => decide (r.company = name)), s)

/-- `Database.jobcount_check()`: today's selection of the dataframe together
with `jobcount_today` and `jobcount_today + total_jobcount`. -/
def jobcountCheck (s : DBState) : Int × Int × List Row :=
  (s.jobcountToday, s.jobcountToday + s.totalJobcount,
    s.rows.filter (fun r => decide (r.date = s.today)))

/-- The tail of `Database.__init__` once the physical rows are loaded and
parsed: `jobcount_today` is the quantity sum of today's rows and
`total_jobcount` is the quantity sum of all rows minus `jobcount_today`. -/
def mkDB (typ : Backend) (rows : List Row) (today : Nat) : DBState :=
  { rows := rows
    newEntries := []
    jobcountToday := sumQ (rows.filter (fun r => decide (r.date = today)))
    totalJobcount :=
      sumQ rows - sumQ (rows.filter (fun r => decide (r.date = today)))
    today := today
    store := rows
    typ := typ }

/-- A sequence of `append_entry` calls for one company. -/
def appendSeq (s : DBState) (name : String) (qs : List Int) : DBState :=
  qs.foldl (fun st q => appendEntry st name q) s

/-! ### Textual dates

The physical formats keep `Date` as text in the shape `"%Y-%m-%d %H:%M:%S"`;
`pd.to_datetime(..., format="%Y-%m-%d %H:%M:%S")` parses exactly that shape
and raises on anything else, and writing a timestamp back to text renders the
zero-padded form of the same shape. -/

/-- The value of a decimal digit character, `none` for a non-digit. -/
def digitVal (c : Char) : Option Nat :=
  if '0' ≤ c ∧ c ≤ '9' then some (c.toNat - '0'.toNat) else none

/-- A nonempty all-digit character list as a number, `none` otherwise. -/
def charsToNat (l : List Char) : Option Nat :=
  match l with
  | [] => none
  | _ => l.foldlM (fun acc c => (digitVal c).map (fun d => acc * 10 + d)) 0

/-- Split a character list on a separator character. -/
def splitOnChar (sep : Char) : List Char → List (List Char)
  | [] => [[]]
  | c :: cs =>
    let rest := splitOnChar sep cs
    if c = sep then [] :: rest
    else
      match rest with
      | [] => [[c]]
      | h :: t => (c :: h) :: t

/-- A parsed `"%Y-%m-%d %H:%M:%S"` timestamp. -/
structure DateTime where
  year : Nat
  month : Nat
  day : Nat
  hour : Nat
  minute : Nat
  second : Nat
deriving DecidableEq, Repr

/-- Parse a textual date in the format `"%Y-%m-%d %H:%M:%S"`, as
`pd.to_datetime(text, format="%Y-%m-%d %H:%M:%S")` does: one space between
the date and time parts, dashes and colons inside them, decimal fields with
month in `1..12`, day in `1..31`, hour below `24` and minute and second
below `60`.  `none` models the raised `ValueError`. -/
def parseDate (l : List Char) : Option DateTime :=
  match splitOnChar ' ' l with
  | [dpart, tpart] =>
    match splitOnChar '-' dpart, splitOnChar ':' tpart with
    | [ys, ms, ds], [hs, mins, ss] => do
      let y ← charsToNat ys
      let mo ← charsToNat ms
      let d ← charsToNat ds
      let h ← charsToNat hs
      let mi ← charsToNat mins
      let sec ← charsToNat ss
      if 1 ≤ mo ∧ mo ≤ 12 ∧ 1 ≤ d ∧ d ≤ 31 ∧ h ≤ 23 ∧ mi ≤ 59 ∧ sec ≤ 59
      then some ⟨y, mo, d, h, mi, sec⟩
      else none
    | _, _ => none
  | _ => none

/-- Left-pad a character list with zeros to a given width. -/
def padTo (w : Nat) (l : List Char) : List Char :=
  List.replicate (w - l.length) '0' ++ l

/-- Render a timestamp back to its `"%Y-%m-%d %H:%M:%S"` text, zero-padded,
as printing a pandas timestamp does. -/
def renderDate (dt : DateTime) : List Char :=
  padTo 4 (Nat.toDigits 10 dt.year) ++ '-' :: padTo 2 (Nat.toDigits 10 dt.month)
    ++ '-' :: padTo 2 (Nat.toDigits 10 dt.day)
    ++ ' ' :: padTo 2 (Nat.toDigits 10 dt.hour)
    ++ ':' :: padTo 2 (Nat.toDigits 10 dt.minute)
    ++ ':' :: padTo 2 (Nat.toDigits 10 dt.second)

/-- A timestamp as one comparable number (used for the in-memory `Date`
column); the factors dominate each component's range, so the encoding is
ordered like the timestamp itself. -/
def dateVal (dt : DateTime) : Nat :=
  ((((dt.year * 13 + dt.month) * 32 + dt.day) * 24 + dt.hour) * 60
      + dt.minute) * 60 + dt.second

/-! ### Load path of `Database.__init__` -/

/-- One row as it sits in a physical store: the `Date` field is still text. -/
structure CsvRow where
  company : String
  status : String
  quantity : Int
  date : List Char
deriving DecidableEq, Repr

/-- The one load-time failure: a row whose date does not parse
(the uncaught `ValueError` of `pd.to_datetime`, the spec's `CorruptRecord`). -/
inductive LoadError where
  | corruptRecord
deriving DecidableEq, Repr

/-- Parse one stored row into an in-memory row
(the per-row `pd.to_datetime` loop of `Database.__init__`). -/
def loadRow (r : CsvRow) : Except LoadError Row :=
  match parseDate r.date with
  | none => .error .corruptRecord
  | some dt => .ok ⟨r.company, r.status, r.quantity, dateVal dt⟩

/-- Parse every stored row, in order; the first unparseable date aborts the
load. -/
def loadRaw : List CsvRow → Except LoadError (List Row)
  | [] => .ok []
  | r :: rest => do
    let row ← loadRow r
    let rows ← loadRaw rest
    pure (row :: rows)

/-- `Database.__init__`: load and parse the physical store, then set up the
dataframe and the two counters.  An unparseable date fails the whole
construction and no record set is produced. -/
def initDB (typ : Backend) (store : List CsvRow) (today : Nat) :
    Except LoadError DBState := do
  let rows ← loadRaw store
  pure (mkDB typ rows today)

/-! ### Admin tools: migration -/

/-- The failures of the admin operations: the migration destination already
holds data (`TargetAlreadyExists`, the caught `ValueError` of
`to_sql(if_exists='fail')`), the source store is missing, or a stored date
does not parse during `untranspile`. -/
inductive AdminError where
  | targetAlreadyExists
  | missingSource
  | corruptRecord
deriving DecidableEq, Repr

/-- The physical world the admin tools act on: the contents of
`applications.csv` (if the file exists) and of the `Jobs` table of
`applications.sqlite` (if the table exists). -/
structure World where
  csvFile : Option (List CsvRow)
  sqlTable : Option (List CsvRow)
deriving DecidableEq, Repr

/-- `AdminTools.transpile` (`tosql`): read `applications.csv` and write it to
the `Jobs` table with `if_exists='fail'`; if the table already exists the
caught `ValueError` reports a failure and nothing is written. -/
def transpile (w : World) : Option AdminError × World :=
  match w.csvFile with
  | none => (some .missingSource, w)
  | some rows =>
    match w.sqlTable with
    | some _ => (some .targetAlreadyExists, w)
    | none => (none, { w with sqlTable := some rows })

/-- The per-row date conversion of `AdminTools.untranspile`: parse the stored
date with `format="%Y-%m-%d %H:%M:%S"` and store the re-rendered timestamp. -/
def convertRow (r : CsvRow) : Option CsvRow :=
  (parseDate r.date).map (fun dt => { r with date := renderDate dt })

/-- The `untranspile` conversion loop over all rows, in order; the first
unparseable date aborts it. -/
def convertRows : List CsvRow → Option (List CsvRow)
  | [] => some []
  | r :: rest => do
    let r' ← convertRow r
    let rest' ← convertRows rest
    pure (r' :: rest')

/-- `AdminTools.untranspile` (`tocsv`): read the `Jobs` table, convert every
date, and write the result to `applications.csv` — overwriting whatever file
was there, with no existence check. -/
def untranspile (w : World) : Option AdminError × World :=
  match w.sqlTable with
  | none => (some .missingSource, w)
  | some rows =>
    match convertRows rows with
    | none => (some .corruptRecord, w)
    | some rows' => (none, { w with csvFile := some rows' })

/-! ### Admin tools: `aggregate`

`AdminTools.aggregate` works on the raw csv text: it groups the rows by
`(Company, Status)` — pandas sorts the group keys ascending — sums
`Quantity` and takes the maximum `Date` (a lexicographic maximum of the date
strings) per group, and finally sorts the result by `Date` ascending. -/

/-- Lexicographic order on character lists — how pandas compares the textual
`Date` column when taking `np.max` and when sorting by `Date`. -/
def lexLe : List Char → List Char → Bool
  | [], _ => true
  | _ :: _, [] => false
  | a :: as, b :: bs => if a < b then true else if a = b then lexLe as bs else false

/-- The groupby key of a row: `(Company, Status)`. -/
def keyOf (r : CsvRow) : String × String :=
  (r.company, r.status)

/-- Ascending order on group keys: lexicographic on `(Company, Status)`. -/
def keyLe (a b : String × String) : Prop :=
  toLex a ≤ toLex b

instance : DecidableRel keyLe :=
  fun a b => inferInstanceAs (Decidable (toLex a ≤ toLex b))

instance : IsTrans (String × String) keyLe :=
  ⟨fun _ _ _ h h' => le_trans h h'⟩

instance : IsAntisymm (String × String) keyLe :=
  ⟨fun _ _ h h' => toLex.injective (le_antisymm h h')⟩

instance : IsTotal (String × String) keyLe :=
  ⟨fun a b => le_total (toLex a) (toLex b)⟩

/-- The distinct group keys of a row list, in ascending order — the keys
pandas `groupby(['Company','Status'], as_index=False)` produces. -/
def sortedKeys (rows : List CsvRow) : List (String × String) :=
  List.insertionSort keyLe ((rows.map keyOf).dedup)

/-- The rows of one group. -/
def rowsFor (rows : List CsvRow) (k : String × String) : List CsvRow :=
  rows.filter (fun r => decide (keyOf r = k))

/-- Quantity sum of a group (`agg({'Quantity': np.sum})`). -/
def sumQc (l : List CsvRow) : Int :=
  (l.map CsvRow.quantity).sum

/-- Maximum date string of a group (`agg({'Date': np.max})`); groups are
never empty, so folding from the lexicographically least list is the
maximum. -/
def maxDateStr (l : List CsvRow) : List Char :=
  (l.map CsvRow.date).foldl (fun a b => if lexLe a b then b else a) []

/-- The aggregated row of one group: the key's company and status, the
group's quantity sum and its maximum date. -/
def aggRow (rows : List CsvRow) (k : String × String) : CsvRow :=
  ⟨k.1, k.2, sumQc (rowsFor rows k), maxDateStr (rowsFor rows k)⟩

/-- The groupby-and-aggregate step: one row per key, in key order. -/
def groupAgg (rows : List CsvRow) : List CsvRow :=
  (sortedKeys rows).map (aggRow rows)

/-- Ascending order on the `Date` column (`sort_values(by='Date')`). -/
def dateRel (a b : CsvRow) : Prop :=
  lexLe a.date b.date = true

instance : DecidableRel dateRel :=
  fun a b => inferInstanceAs (Decidable (lexLe a.date b.date = true))

/-- `AdminTools.aggregate`: group by `(Company, Status)`, sum `Quantity`,
take the maximum `Date`, then sort by `Date` ascending. -/
def aggregate (rows : List CsvRow) : List CsvRow :=
  List.insertionSort dateRel (groupAgg rows)

/-! ### Two concrete runs used to evaluate the code -/

/-- A run on the sql backend: the store holds an `Acme` row from day `1`
and an `Acme` row from today (day `100`); one more `append_entry` for
`Acme` arrives. -/
def c2Run : DBState :=
  appendEntry (mkDB Backend.sql
    [⟨"Acme", "Applied", 2, 1⟩, ⟨"Acme", "Applied", 3, 100⟩] 100) "Acme" 4

/-- A run on the csv backend: the store holds an `Acme` row from day `1`;
`append_entry("Acme", 3)` then `append_entry("Acme", 4)` arrive today
(day `100`). -/
def c4Run : DBState :=
  appendEntry (appendEntry
    (mkDB Backend.csv [⟨"Acme", "Applied", 2, 1⟩] 100) "Acme" 3) "Acme" 4

/-! ### Helper lemmas about `commit` and `append_entry` -/

theorem commit_rows (s : DBState) (a b : Bool) (v : Int) (c st : String)
    (ch : Char) : (commit s a b v c st ch).rows = s.rows := rfl

theorem commit_today (s : DBState) (a b : Bool) (v : Int) (c st : String)
    (ch : Char) : (commit s a b v c st ch).today = s.today := rfl

theorem commit_jobcountToday (s : DBState) (a b : Bool) (v : Int)
    (c st : String) (ch : Char) :
    (commit s a b v c st ch).jobcountToday = s.jobcountToday := rfl

theorem commit_totalJobcount (s : DBState) (a b : Bool) (v : Int)
    (c st : String) (ch : Char) :
    (commit s a b v c st ch).totalJobcount = s.totalJobcount := rfl

theorem appendEntry_today (s : DBState) (name : String) (q : Int) :
    (appendEntry s name q).today = s.today := by
  unfold appendEntry
  dsimp only
  split
  · rfl
  · split <;> rfl

/-- In the fresh branch (no matching rows at all), `append_entry` appends
one `(name, 'Applied', q, today)` row to the dataframe. -/
theorem appendEntry_fresh (s : DBState) (name : String) (q : Int)
    (hfil : s.rows.filter (fun r => decide (r.company = name)) = []) :
    (appendEntry s name q).rows = s.rows ++ [⟨name, "Applied", q, s.today⟩] := by
  unfold appendEntry
  dsimp only
  rw [hfil]
  have hcond : sumQ ([] : List Row) = 0 ∨ maxDate [] ≠ some s.today :=
    Or.inl rfl
  rw [if_pos hcond]
  rfl

theorem appendEntry_fresh_jobcount (s : DBState) (name : String) (q : Int)
    (hfil : s.rows.filter (fun r => decide (r.company = name)) = []) :
    (appendEntry s name q).jobcountToday = s.jobcountToday + q := by
  unfold appendEntry
  dsimp only
  rw [hfil]
  have hcond : sumQ ([] : List Row) = 0 ∨ maxDate [] ≠ some s.today :=
    Or.inl rfl
  rw [if_pos hcond]
  rfl

/-- A map that does not change the tested field commutes with a filter. -/
theorem filter_map_comm {α : Type} (f : α → α) (p : α → Bool)
    (hf : ∀ r, p (f r) = p r) (l : List α) :
    (l.map f).filter p = (l.filter p).map f := by
  induction l with
  | nil => rfl
  | cons a as ih =>
    rw [List.map_cons, List.filter_cons, List.filter_cons, hf a]
    cases p a <;> simp [ih]

/-- In the increment branch — the company's matching rows have a nonzero
quantity sum and a maximal date equal to today — `append_entry` adds the
quantity to every matching row, so a single matching row has its quantity
incremented. -/
theorem appendEntry_increment (s : DBState) (name : String) (q t : Int)
    (ht : t ≠ 0)
    (hfil : s.rows.filter (fun r => decide (r.company = name))
        = [⟨name, "Applied", t, s.today⟩]) :
    (appendEntry s name q).rows.filter (fun r => decide (r.company = name))
      = [⟨name, "Applied", t + q, s.today⟩] := by
  unfold appendEntry
  dsimp only
  rw [hfil]
  have hcond : ¬(sumQ [(⟨name, "Applied", t, s.today⟩ : Row)] = 0 ∨
      maxDate [(⟨name, "Applied", t, s.today⟩ : Row)] ≠ some s.today) := by
    simp [sumQ, maxDate, ht]
  rw [if_neg hcond]
  split <;>
    (rw [commit_rows]
     dsimp only
     rw [filter_map_comm _ _ (fun r => by by_cases h : r.company = name <;> simp [h])]
     rw [hfil]
     simp)

/-- Pointwise frame facts about mapping a row-updating function over the
record set: length, quantities and dates are untouched, and rows whose
company is not the updated one are returned unchanged at their position. -/
theorem map_frame_aux (name : String) (f : Row → Row)
    (hq : ∀ r, (f r).quantity = r.quantity)
    (hd : ∀ r, (f r).date = r.date)
    (hfix : ∀ r : Row, r.company ≠ name → f r = r) (l : List Row) :
    (l.map f).length = l.length ∧
    (l.map f).map Row.quantity = l.map Row.quantity ∧
    (l.map f).map Row.date = l.map Row.date ∧
    (∀ (i : Nat) (r : Row), l[i]? = some r → r.company ≠ name →
      (l.map f)[i]? = some r) := by
  refine ⟨by simp, ?_, ?_, ?_⟩
  · rw [List.map_map]
    exact List.map_congr_left fun r _ => hq r
  · rw [List.map_map]
    exact List.map_congr_left fun r _ => hd r
  · intro i r hr hne
    rw [List.getElem?_map, hr]
    simp [hfix r hne]

/-- Any unparseable date in the store makes the whole load fail with
`CorruptRecord`. -/
theorem loadRaw_error_of_bad {store : List CsvRow} {r : CsvRow}
    (hmem : r ∈ store) (hbad : parseDate r.date = none) :
    loadRaw store = .error .corruptRecord := by
  induction store with
  | nil => cases hmem
  | cons a as ih =>
    rcases List.mem_cons.mp hmem with h | h
    · subst h
      simp only [loadRaw, loadRow, hbad]
      rfl
    · have htail := ih h
      rw [loadRaw, htail]
      cases loadRow a with
      | error e => cases e; rfl
      | ok v => rfl

theorem appendSeq_today (s : DBState) (c : String) (qs : List Int) :
    (appendSeq s c qs).today = s.today := by
  induction qs generalizing s with
  | nil => rfl
  | cons a as ih =>
    show (appendSeq (appendEntry s c a) c as).today = s.today
    rw [ih, appendEntry_today]

/-- As long as the company's only row is a today-row with positive quantity,
every further positive same-day append lands on that row. -/
theorem appendSeq_increment (c : String) :
    ∀ (qs : List Int), (∀ x ∈ qs, 0 < x) →
      ∀ (s : DBState) (t : Int), 0 < t →
        s.rows.filter (fun r => decide (r.company = c))
          = [⟨c, "Applied", t, s.today⟩] →
        (appendSeq s c qs).rows.filter (fun r => decide (r.company = c))
          = [⟨c, "Applied", t + qs.sum, s.today⟩] := by
  intro qs
  induction qs with
  | nil =>
    intro _ s t ht hfil
    simpa using hfil
  | cons a as ih =>
    intro hpos s t ht hfil
    have ha : 0 < a := hpos a (List.mem_cons_self a as)
    have hstep := appendEntry_increment s c a t (by omega) hfil
    have htoday := appendEntry_today s c a
    have hrec := ih (fun x hx => hpos x (List.mem_cons_of_mem a hx))
      (appendEntry s c a) (t + a) (by omega) (by rw [htoday]; exact hstep)
    show (appendSeq (appendEntry s c a) c as).rows.filter
        (fun r => decide (r.company = c)) = _
    rw [hrec, htoday, List.sum_cons, add_assoc]

theorem filter_and_date {l : List Row} {c : String} {d : Nat} {row : Row}
    (hfil : l.filter (fun r => decide (r.company = c)) = [row])
    (hd : row.date = d) :
    l.filter (fun r => decide (r.company = c ∧ r.date = d)) = [row] := by
  have hpred : (fun r : Row => decide (r.company = c ∧ r.date = d))
      = fun r => decide (r.date = d) && decide (r.company = c) := by
    funext r
    rw [Bool.decide_and, Bool.and_comm]
  rw [hpred, ← List.filter_filter, hfil, List.filter_cons]
  simp [hd]

/-! ### Claims -/

/-- C1 (amended): for every nonempty sequence of positive quantities
appended to the same company on the same day, starting from a record set
with no rows for that company, the resulting record set has exactly one row
for `(c, today)` and its quantity is the sum of the sequence. -/
theorem append_same_day_aggregates (s : DBState) (c : String) (q : Int)
    (qs : List Int) (hq : 0 < q) (hpos : ∀ x ∈ qs, 0 < x)
    (hfil : s.rows.filter (fun r => decide (r.company = c)) = []) :
    (appendSeq s c (q :: qs)).rows.filter
        (fun r => decide (r.company = c ∧ r.date = s.today))
      = [⟨c, "Applied", (q :: qs).sum, s.today⟩] := by
  have h1 : (appendEntry s c q).rows.filter (fun r => decide (r.company = c))
      = [⟨c, "Applied", q, s.today⟩] := by
    rw [appendEntry_fresh s c q hfil, List.filter_append, hfil]
    simp
  have htoday := appendEntry_today s c q
  have hrec := appendSeq_increment c qs hpos (appendEntry s c q) q hq
    (by rw [htoday]; exact h1)
  have hcomp : (appendSeq s c (q :: qs)).rows.filter
      (fun r => decide (r.company = c))
      = [⟨c, "Applied", q + qs.sum, s.today⟩] := by
    show (appendSeq (appendEntry s c q) c qs).rows.filter _ = _
    rw [hrec, htoday]
  rw [List.sum_cons]
  exact filter_and_date hcomp rfl

/-- C1 witness: the spec scenario — start empty, append `(Acme, 2)` then
`(Acme, 3)` the same day — yields the single row `(Acme, Applied, 5, today)`. -/
theorem append_same_day_aggregates_witness :
    (0 : Int) < 2 ∧
    (appendSeq (mkDB Backend.csv [] 100) "Acme" [2, 3]).rows.filter
        (fun r => decide (r.company = "Acme" ∧ r.date = 100))
      = [⟨"Acme", "Applied", 5, 100⟩] :=
  ⟨by decide,
    append_same_day_aggregates (mkDB Backend.csv [] 100) "Acme" 2 [3]
      (by decide) (by decide) rfl⟩

/-- C1 counterexample: appending quantity `0` and then `1` to the same
company on the same day — the emptiness test `found['Quantity'].sum() == 0`
fires again and a second `(Acme, today)` row is created, so the record set
does not contain exactly one row for `(c, today)`. -/
theorem append_same_day_counterexample :
    ((appendSeq (mkDB Backend.csv [] 100) "Acme" [0, 1]).rows.filter
        (fun r => decide (r.company = "Acme" ∧ r.date = 100))).length = 2 := by
  decide

/-- A row whose stored date text is canonical — parsing and re-rendering it
reproduces the text — converts to itself in `untranspile`. -/
theorem convertRow_self {r : CsvRow}
    (h : (parseDate r.date).map renderDate = some r.date) :
    convertRow r = some r := by
  obtain ⟨dt, h1, h2⟩ := Option.map_eq_some'.mp h
  rw [convertRow, h1]
  simp [h2]

theorem convertRows_self {rows : List CsvRow}
    (h : ∀ r ∈ rows, convertRow r = some r) :
    convertRows rows = some rows := by
  induction rows with
  | nil => rfl
  | cons a as ih =>
    rw [convertRows, h a (List.mem_cons_self a as),
      ih (fun r hr => h r (List.mem_cons_of_mem a hr))]
    rfl

theorem keyOf_aggRow (rows : List CsvRow) (k : String × String) :
    keyOf (aggRow rows k) = k := by
  simp [keyOf, aggRow]

theorem map_keyOf_groupAgg (rows : List CsvRow) :
    (groupAgg rows).map keyOf = sortedKeys rows := by
  rw [groupAgg, List.map_map]
  have hcomp : keyOf ∘ aggRow rows = id := funext fun k => keyOf_aggRow rows k
  rw [hcomp, List.map_id]

theorem sortedKeys_nodup (rows : List CsvRow) : (sortedKeys rows).Nodup :=
  (List.perm_insertionSort keyLe _).symm.nodup (List.nodup_dedup _)

theorem sortedKeys_sorted (rows : List CsvRow) :
    List.Sorted keyLe (sortedKeys rows) :=
  List.sorted_insertionSort keyLe _

/-- Sorting by the (antisymmetric, total) key order is invariant under
permutation of the input. -/
theorem sortKeys_congr {l₁ l₂ : List (String × String)} (h : l₁.Perm l₂) :
    List.insertionSort keyLe l₁ = List.insertionSort keyLe l₂ :=
  List.eq_of_perm_of_sorted
    ((List.perm_insertionSort _ _).trans
      (h.trans (List.perm_insertionSort _ _).symm))
    (List.sorted_insertionSort _ _) (List.sorted_insertionSort _ _)

/-- The aggregated output exposes exactly the same group keys. -/
theorem sortedKeys_aggregate (rows : List CsvRow) :
    sortedKeys (aggregate rows) = sortedKeys rows := by
  have hperm : ((aggregate rows).map keyOf).Perm (sortedKeys rows) := by
    rw [← map_keyOf_groupAgg rows]
    exact (List.perm_insertionSort dateRel (groupAgg rows)).map keyOf
  have hnd : ((aggregate rows).map keyOf).Nodup :=
    hperm.symm.nodup (map_keyOf_groupAgg rows ▸ sortedKeys_nodup rows)
  rw [sortedKeys, List.dedup_eq_self.mpr hnd, sortKeys_congr hperm]
  exact List.eq_of_perm_of_sorted (List.perm_insertionSort _ _)
    (List.sorted_insertionSort _ _) (sortedKeys_sorted rows)

/-- Filtering a keyed map over distinct keys selects exactly the image of
the looked-up key. -/
theorem filter_key_map {ks : List (String × String)}
    (f : (String × String) → CsvRow) (hkf : ∀ k, keyOf (f k) = k)
    {k : String × String} (hnd : ks.Nodup) (hk : k ∈ ks) :
    (ks.map f).filter (fun r => decide (keyOf r = k)) = [f k] := by
  induction ks with
  | nil => cases hk
  | cons a as ih =>
    rw [List.map_cons, List.filter_cons]
    rcases List.mem_cons.mp hk with h | h
    · subst h
      have hd : decide (keyOf (f k) = k) = true := by simp [hkf]
      rw [hd, if_pos rfl]
      have hnot : k ∉ as := (List.nodup_cons.mp hnd).1
      have hnil : (as.map f).filter (fun r => decide (keyOf r = k)) = [] := by
        rw [List.filter_eq_nil_iff]
        intro r hr
        obtain ⟨k', hk', rfl⟩ := List.mem_map.mp hr
        simp [hkf]
        exact fun e => hnot (e ▸ hk')
      rw [hnil]
    · have hne : a ≠ k := fun e => (List.nodup_cons.mp hnd).1 (e ▸ h)
      have hd : decide (keyOf (f a) = k) = false := by simp [hkf, hne]
      rw [hd]
      exact ih (List.nodup_cons.mp hnd).2 h

/-- In the aggregated output every group is a single row. -/
theorem rowsFor_aggregate {rows : List CsvRow} {k : String × String}
    (hk : k ∈ sortedKeys rows) :
    rowsFor (aggregate rows) k = [aggRow rows k] := by
  have hperm : (rowsFor (aggregate rows) k).Perm (rowsFor (groupAgg rows) k) :=
    (List.perm_insertionSort dateRel (groupAgg rows)).filter _
  have heq : rowsFor (groupAgg rows) k = [aggRow rows k] :=
    filter_key_map (aggRow rows) (keyOf_aggRow rows) (sortedKeys_nodup rows) hk
  exact List.perm_singleton.mp (heq ▸ hperm)

/-- Re-aggregating the aggregated output regroups it into exactly the same
rows: each group is the singleton whose sum and maximum are its own values. -/
theorem groupAgg_aggregate (rows : List CsvRow) :
    groupAgg (aggregate rows) = groupAgg rows := by
  rw [groupAgg, groupAgg, sortedKeys_aggregate]
  apply List.map_congr_left
  intro k hk
  rw [aggRow, rowsFor_aggregate hk]
  simp [sumQc, maxDateStr, lexLe, aggRow]

/-- C2: evaluating `append_entry("Acme", 4)` when `Acme` has a day-1 row
with quantity `2` and a today-row with quantity `3`: the in-memory record
set's day-1 row is incremented to `6` (the claim says it stays `2`), while
the sql store's targeted update leaves its day-1 row at `2` — the code's
two representations even disagree with each other. -/
theorem append_increments_all_rows_of_company :
    (c2Run.rows.filter (fun r => decide (r.date = 1))
      = [⟨"Acme", "Applied", 6, 1⟩]) ∧
    (c2Run.store.filter (fun r => decide (r.date = 1))
      = [⟨"Acme", "Applied", 2, 1⟩]) := by
  decide

/-- C4: evaluating the run `c4Run`: the count summary reports the grand
total `9` (`jobcount_today = 7` plus `total_jobcount = 2`) while the full
scan of the record set sums to `13`, because the second append incremented
the day-1 row as well without being counted. -/
theorem counters_diverge_from_scan :
    (jobcountCheck c4Run).2.1 = 9 ∧ sumQ c4Run.rows = 13 := by
  decide

/-- C10: `search(name)` is read-only — for every state and every name,
including names matching no rows, the in-memory record set, the pending
new-entry buffer, both derived counters, and the physical store are the
same before and after the call. -/
theorem search_readonly (s : DBState) (name : String) :
    (search s name).2 = s ∧
    (search s name).2.rows = s.rows ∧
    (search s name).2.newEntries = s.newEntries ∧
    (search s name).2.jobcountToday = s.jobcountToday ∧
    (search s name).2.totalJobcount = s.totalJobcount ∧
    (search s name).2.store = s.store :=
  ⟨rfl, rfl, rfl, rfl, rfl, rfl⟩

/-- C9: for `choice = 's'` (status update) or `choice = 'c'` (company
rename), `update_entry` keeps both counters, the number of rows, and the
`Quantity` and `Date` fields of every row unchanged, and rows whose company
differs from `name` are returned entirely unchanged at their position. -/
theorem updateEntry_frame (s : DBState) (name value : String) (choice : Char)
    (h : choice = 's' ∨ choice = 'c') :
    (updateEntry s name value choice).jobcountToday = s.jobcountToday ∧
    (updateEntry s name value choice).totalJobcount = s.totalJobcount ∧
    (updateEntry s name value choice).rows.length = s.rows.length ∧
    (updateEntry s name value choice).rows.map Row.quantity
        = s.rows.map Row.quantity ∧
    (updateEntry s name value choice).rows.map Row.date = s.rows.map Row.date ∧
    ∀ (i : Nat) (r : Row), s.rows[i]? = some r → r.company ≠ name →
      (updateEntry s name value choice).rows[i]? = some r := by
  rcases h with h | h <;> subst h
  · have hrows : (updateEntry s name value 's').rows
        = s.rows.map (fun r =>
            if r.company = name then { r with status := value } else r) := rfl
    obtain ⟨h1, h2, h3, h4⟩ :=
      map_frame_aux name
        (fun r => if r.company = name then { r with status := value } else r)
        (fun r => by by_cases hc : r.company = name <;> simp [hc])
        (fun r => by by_cases hc : r.company = name <;> simp [hc])
        (fun r hc => by simp [hc]) s.rows
    exact ⟨rfl, rfl, hrows ▸ h1, hrows ▸ h2, hrows ▸ h3, by rw [hrows]; exact h4⟩
  · have hrows : (updateEntry s name value 'c').rows
        = s.rows.map (fun r =>
            if r.company = name then { r with company := value } else r) := rfl
    obtain ⟨h1, h2, h3, h4⟩ :=
      map_frame_aux name
        (fun r => if r.company = name then { r with company := value } else r)
        (fun r => by by_cases hc : r.company = name <;> simp [hc])
        (fun r => by by_cases hc : r.company = name <;> simp [hc])
        (fun r hc => by simp [hc]) s.rows
    exact ⟨rfl, rfl, hrows ▸ h1, hrows ▸ h2, hrows ▸ h3, by rw [hrows]; exact h4⟩

/-- C9 witness: a concrete status update leaves the today-counter and the
row count of a one-row database unchanged. -/
theorem updateEntry_frame_witness :
    ('s' = 's' ∨ 's' = 'c') ∧
    (updateEntry (mkDB Backend.csv [⟨"Acme", "Applied", 2, 99⟩] 100)
        "Acme" "Offered" 's').jobcountToday
      = (mkDB Backend.csv [⟨"Acme", "Applied", 2, 99⟩] 100).jobcountToday ∧
    (updateEntry (mkDB Backend.csv [⟨"Acme", "Applied", 2, 99⟩] 100)
        "Acme" "Offered" 's').rows.length
      = (mkDB Backend.csv [⟨"Acme", "Applied", 2, 99⟩] 100).rows.length :=
  ⟨Or.inl rfl,
    (updateEntry_frame (mkDB Backend.csv [⟨"Acme", "Applied", 2, 99⟩] 100)
      "Acme" "Offered" 's' (Or.inl rfl)).1,
    (updateEntry_frame (mkDB Backend.csv [⟨"Acme", "Applied", 2, 99⟩] 100)
      "Acme" "Offered" 's' (Or.inl rfl)).2.2.1⟩

/-- C3 counterexample: `append_entry` with the negative quantity `-5` does
not fail — it modifies both the record set and the today-counter, so the
claimed `InvalidQuantity` rejection does not exist in the code. -/
theorem appendEntry_negative_counterexample :
    (appendEntry (mkDB Backend.csv [] 100) "Acme" (-5)).rows
        ≠ (mkDB Backend.csv [] 100).rows ∧
    (appendEntry (mkDB Backend.csv [] 100) "Acme" (-5)).jobcountToday
        ≠ (mkDB Backend.csv [] 100).jobcountToday := by
  decide

/-- C3 (amended): `append_entry` performs no quantity validation — a
negative quantity is accepted like any other; with no matching rows it
appends a `(name, 'Applied', q, today)` row and adds the negative `q` to
the today-counter. -/
theorem appendEntry_negative_accepted (s : DBState) (name : String) (q : Int)
    (_hq : q < 0)
    (hfil : s.rows.filter (fun r => decide (r.company = name)) = []) :
    (appendEntry s name q).rows = s.rows ++ [⟨name, "Applied", q, s.today⟩] ∧
    (appendEntry s name q).jobcountToday = s.jobcountToday + q :=
  ⟨appendEntry_fresh s name q hfil, appendEntry_fresh_jobcount s name q hfil⟩

/-- C3 witness: appending quantity `-7` to an empty database stores the
negative row. -/
theorem appendEntry_negative_accepted_witness :
    (-7 : Int) < 0 ∧
    (appendEntry (mkDB Backend.csv [] 100) "Acme" (-7)).rows
        = (mkDB Backend.csv [] 100).rows ++ [⟨"Acme", "Applied", -7, 100⟩] :=
  ⟨by decide,
    (appendEntry_negative_accepted (mkDB Backend.csv [] 100) "Acme" (-7)
      (by decide) rfl).1⟩

/-- C8: loading a store that contains a row with an unparseable date fails
with `CorruptRecord`, and the failed construction produces no record set at
all. -/
theorem initDB_corruptRecord (typ : Backend) (store : List CsvRow) (today : Nat)
    (r : CsvRow) (hmem : r ∈ store) (hbad : parseDate r.date = none) :
    initDB typ store today = .error .corruptRecord := by
  simp [initDB, loadRaw_error_of_bad hmem hbad]

/-- C8 witness: a store whose second row has the date text `"oops"` fails
to load. -/
theorem initDB_corruptRecord_witness :
    initDB Backend.csv
        [⟨"Acme", "Applied", 2, "2024-05-01 00:00:00".toList⟩,
         ⟨"Bad", "Applied", 1, "oops".toList⟩] 100
      = .error .corruptRecord :=
  initDB_corruptRecord Backend.csv _ 100 ⟨"Bad", "Applied", 1, "oops".toList⟩
    (by decide) (by decide)

/-- C5 counterexample: with both stores present, `untranspile` (relational →
tabular) does not fail with `TargetAlreadyExists` — it succeeds and replaces
the existing tabular file. -/
theorem untranspile_overwrites_counterexample :
    ((untranspile ⟨some [⟨"Old", "Pending", 1, "2023-01-01 00:00:00".toList⟩],
        some [⟨"Acme", "Applied", 5, "2024-05-01 00:00:00".toList⟩]⟩).1
      = none) ∧
    ((untranspile ⟨some [⟨"Old", "Pending", 1, "2023-01-01 00:00:00".toList⟩],
        some [⟨"Acme", "Applied", 5, "2024-05-01 00:00:00".toList⟩]⟩).2.csvFile
      ≠ some [⟨"Old", "Pending", 1, "2023-01-01 00:00:00".toList⟩]) := by
  decide

/-- C5 (amended): `transpile` (tabular → relational) fails with
`TargetAlreadyExists` when the `Jobs` table exists and leaves both stores
unchanged, while `untranspile` (relational → tabular) performs no
destination check: when the relational rows' dates parse it succeeds and
overwrites the existing tabular file with the converted rows. -/
theorem migration_destination_check (w : World) (rows rows' out : List CsvRow)
    (hcsv : w.csvFile = some rows) (hsql : w.sqlTable = some rows')
    (hconv : convertRows rows' = some out) :
    transpile w = (some AdminError.targetAlreadyExists, w) ∧
    untranspile w = (none, { w with csvFile := some out }) := by
  cases w with
  | mk c q =>
    dsimp only at hcsv hsql
    subst hcsv
    subst hsql
    exact ⟨rfl, by simp [untranspile, hconv]⟩

/-- C6: for every tabular record set whose stored dates are in the
canonical `"%Y-%m-%d %H:%M:%S"` text (the form the system itself writes),
migrating to the relational store and back succeeds and reproduces exactly
the same rows — all four fields equal, no row added or lost. -/
theorem migration_roundtrip (rows : List CsvRow)
    (hdates : ∀ r ∈ rows, (parseDate r.date).map renderDate = some r.date) :
    (transpile ⟨some rows, none⟩).1 = none ∧
    untranspile (transpile ⟨some rows, none⟩).2
      = (none, ⟨some rows, some rows⟩) := by
  have hconv : convertRows rows = some rows :=
    convertRows_self (fun r hr => convertRow_self (hdates r hr))
  exact ⟨rfl, by simp [transpile, untranspile, hconv]⟩

/-- C6 witness: a concrete two-row tabular store round-trips through the
relational store unchanged. -/
theorem migration_roundtrip_witness :
    (transpile ⟨some [⟨"Acme", "Applied", 5, "2024-05-01 00:00:00".toList⟩,
        ⟨"Beta", "Offered", 2, "2023-11-30 00:00:00".toList⟩], none⟩).1
      = none ∧
    untranspile (transpile
        ⟨some [⟨"Acme", "Applied", 5, "2024-05-01 00:00:00".toList⟩,
          ⟨"Beta", "Offered", 2, "2023-11-30 00:00:00".toList⟩], none⟩).2
      = (none, ⟨some [⟨"Acme", "Applied", 5, "2024-05-01 00:00:00".toList⟩,
          ⟨"Beta", "Offered", 2, "2023-11-30 00:00:00".toList⟩],
          some [⟨"Acme", "Applied", 5, "2024-05-01 00:00:00".toList⟩,
          ⟨"Beta", "Offered", 2, "2023-11-30 00:00:00".toList⟩]⟩) :=
  migration_roundtrip _ (by decide)

/-- C7: the Aggregator is idempotent — grouping by `(Company, Status)` with
quantity sums and date maxima, then sorting by date, applied twice, equals
one application. -/
theorem aggregate_idempotent (rows : List CsvRow) :
    aggregate (aggregate rows) = aggregate rows := by
  rw [aggregate, groupAgg_aggregate, aggregate]

/-- C5 witness: with a populated tabular store and an existing `Jobs`
table, `transpile` fails with `TargetAlreadyExists` and both stores are
unchanged. -/
theorem migration_destination_check_witness :
    transpile ⟨some [⟨"Old", "Pending", 1, "2023-01-01 00:00:00".toList⟩],
        some [⟨"Acme", "Applied", 5, "2024-05-01 00:00:00".toList⟩]⟩
      = (some AdminError.targetAlreadyExists,
          ⟨some [⟨"Old", "Pending", 1, "2023-01-01 00:00:00".toList⟩],
            some [⟨"Acme", "Applied", 5, "2024-05-01 00:00:00".toList⟩]⟩) :=
  (migration_destination_check _ _ _
    [⟨"Acme", "Applied", 5, "2024-05-01 00:00:00".toList⟩] rfl rfl (by decide)).1

end JobSearch
